import Mathlib

/-!
# Verification of the teeny-sha1 specification against the code

The repository provides a single-function SHA-1 implementation
(`sha1digest` in teeny-sha1.c, documented in README.md) together with a
test program (teeny-sha1-test.c).  The engine itself is not among the
given sources, so it is modelled from the specification's algorithm
description (spec §3, §4.1); the test harness (`generatehex`,
`testhash`, the NSRL loops in `main`) is translated from
teeny-sha1-test.c.

Machine integers are modelled as `Nat` with explicit `% 2^32` wrapping;
byte buffers are functions `Nat → Nat` together with a length, mirroring
the C `(const uint8_t *data, size_t databytes)` calling convention.

Alongside the readable reference definitions there is a strict
evaluator (`roundsQ`, `blocksF`, …) in which every intermediate word is
forced to a numeral before the computation continues; it is proved equal
to the reference definitions and is what makes the known-answer theorems
(including the million-byte vector) kernel-checkable.
-/

namespace TeenySha1

set_option maxHeartbeats 0

/-! ## Reference digest engine, modelled from the spec -/

/-- Modelled from the spec (§4.1, teeny-sha1.c not under src/):
left rotation of a 32-bit word by `n` bits. -/
def rotl (n x : Nat) : Nat := ((x <<< n) ||| (x >>> (32 - n))) % 2 ^ 32

/-- Modelled from the spec (§3, §4.1 step 1): total length of the padded
message: original bytes, one `0x80` byte, zero padding to 56 mod 64, and
an 8-byte bit-length field, a multiple of 64. -/
def padLen (databytes : Nat) : Nat := ((databytes + 8) / 64 + 1) * 64

/-- Modelled from the spec (§3, §4.1 step 1): byte `i` of the padded
message: the data itself, then `0x80`, then zeros, then the original
bit length in big-endian order in the last 8 bytes. -/
def paddedByte (data : Nat → Nat) (databytes i : Nat) : Nat :=
  if i < databytes then data i % 256
  else if i = databytes then 0x80
  else if i + 8 < padLen databytes then 0
  else ((8 * databytes) >>> (8 * (padLen databytes - 1 - i))) % 256

/-- Modelled from the spec (§3): 32-bit big-endian word `j` (0 ≤ j < 16)
of 64-byte block `blk` of the padded message. -/
def wordAt (data : Nat → Nat) (databytes blk j : Nat) : Nat :=
  let o := blk * 64 + j * 4
  (paddedByte data databytes o <<< 24) |||
  (paddedByte data databytes (o + 1) <<< 16) |||
  (paddedByte data databytes (o + 2) <<< 8) |||
  paddedByte data databytes (o + 3)

/-- Modelled from the spec (§3): the message schedule of block `blk`:
the first 16 words are the block's words verbatim, and words 16…79 are
the XOR of the words 3, 8, 14 and 16 back, rotated left by one bit. -/
def sched (data : Nat → Nat) (databytes blk : Nat) : Nat → Nat
  | j =>
    if _h : j < 16 then wordAt data databytes blk j
    else
      rotl 1 (sched data databytes blk (j - 3) ^^^ sched data databytes blk (j - 8) ^^^
        sched data databytes blk (j - 14) ^^^ sched data databytes blk (j - 16))
  termination_by j => j
  decreasing_by all_goals omega

/-- Modelled from the spec (§4.1 step 2c): the "choose" nonlinear function
used in rounds 0–19. -/
def fchoose (b c d : Nat) : Nat := (b &&& c) ||| ((0xFFFFFFFF ^^^ b) &&& d)

/-- Modelled from the spec (§4.1 step 2c): the "parity" nonlinear function
used in rounds 20–39 and 60–79. -/
def fparity (b c d : Nat) : Nat := b ^^^ c ^^^ d

/-- Modelled from the spec (§4.1 step 2c): the "majority" nonlinear
function used in rounds 40–59. -/
def fmaj (b c d : Nat) : Nat := (b &&& c) ||| (b &&& d) ||| (c &&& d)

/-- Modelled from the spec (§4.1 step 2c): the nonlinear function used in
round `t`, selected by the round's quartile. -/
def roundF (t : Nat) : Nat → Nat → Nat → Nat :=
  if t < 20 then fchoose
  else if t < 40 then fparity
  else if t < 60 then fmaj
  else fparity

/-- Modelled from the spec (§4.1 step 2c): the additive constant used in
round `t`, selected by the round's quartile. -/
def roundK (t : Nat) : Nat :=
  if t < 20 then 0x5A827999
  else if t < 40 then 0x6ED9EBA1
  else if t < 60 then 0x8F1BBCDC
  else 0xCA62C1D6

/-- The spec's §4.1/§9 round table, written the way the spec words it:
an explicit lookup indexed by round quartile, pairing each quartile's
nonlinear function with its additive constant. -/
def roundTable (q : Nat) : (Nat → Nat → Nat → Nat) × Nat :=
  if q = 0 then (fchoose, 0x5A827999)
  else if q = 1 then (fparity, 0x6ED9EBA1)
  else if q = 2 then (fmaj, 0x8F1BBCDC)
  else (fparity, 0xCA62C1D6)

/-- Modelled from the spec (§4.1 step 2c): run `fuel` compression rounds
starting at round index `t` on the five working variables, consuming one
schedule word `W t` per round. -/
def roundsT (W : Nat → Nat) : (fuel : Nat) → Nat → (Nat × Nat × Nat × Nat × Nat) →
    Nat × Nat × Nat × Nat × Nat :=
  Nat.rec (motive := fun _ => Nat → (Nat × Nat × Nat × Nat × Nat) → Nat × Nat × Nat × Nat × Nat)
    (fun _ s => s)
    (fun _ ih t s =>
      ih (t + 1)
        ((rotl 5 s.1 + roundF t s.2.1 s.2.2.1 s.2.2.2.1 + s.2.2.2.2 + roundK t + W t) % 2 ^ 32,
         s.1, rotl 30 s.2.1, s.2.2.1, s.2.2.2.1))

/-- Modelled from the spec (§4.1 step 2): one block's compression: run the
80 rounds from the current hash state and add the result back into the
hash state, wrapping modulo 2^32. -/
def processBlock (data : Nat → Nat) (databytes blk : Nat)
    (h : Nat × Nat × Nat × Nat × Nat) : Nat × Nat × Nat × Nat × Nat :=
  let s := roundsT (sched data databytes blk) 80 0 h
  ((h.1 + s.1) % 2 ^ 32, (h.2.1 + s.2.1) % 2 ^ 32, (h.2.2.1 + s.2.2.1) % 2 ^ 32,
   (h.2.2.2.1 + s.2.2.2.1) % 2 ^ 32, (h.2.2.2.2 + s.2.2.2.2) % 2 ^ 32)

/-- Modelled from the spec (§4.1): fold the blocks `blk, blk+1, …` over the
hash state, `n` blocks in order. -/
def processBlocks (data : Nat → Nat) (databytes : Nat) :
    (n blk : Nat) → (Nat × Nat × Nat × Nat × Nat) → Nat × Nat × Nat × Nat × Nat :=
  Nat.rec (motive := fun _ => Nat → (Nat × Nat × Nat × Nat × Nat) → Nat × Nat × Nat × Nat × Nat)
    (fun _ s => s)
    (fun _ ih blk s => ih (blk + 1) (processBlock data databytes blk s))

/-- Modelled from the spec (§4.1): the five SHA-1 initialization constants. -/
def initState : Nat × Nat × Nat × Nat × Nat :=
  (0x67452301, 0xEFCDAB89, 0x98BADCFE, 0x10325476, 0xC3D2E1F0)

/-- Modelled from the spec (§4.1): the final hash state of the whole
message: the linear fold of all padded blocks from the initial state. -/
def sha1state (data : Nat → Nat) (databytes : Nat) : Nat × Nat × Nat × Nat × Nat :=
  processBlocks data databytes (padLen databytes / 64) 0 initState

/-- Modelled from the spec (§4.1 step 3): big-endian serialization of one
32-bit hash word as 4 bytes. -/
def wordBytes (w : Nat) : List Nat :=
  [(w >>> 24) % 256, (w >>> 16) % 256, (w >>> 8) % 256, w % 256]

/-- Modelled from the spec (§4.1 step 3): the 20-byte binary digest: the
five hash state words serialized big-endian, in order. -/
def sha1bytes (data : Nat → Nat) (databytes : Nat) : List Nat :=
  let h := sha1state data databytes
  wordBytes h.1 ++ wordBytes h.2.1 ++ wordBytes h.2.2.1 ++
    wordBytes h.2.2.2.1 ++ wordBytes h.2.2.2.2

/-- Lowercase hexadecimal digit for a value below 16. -/
def hexChar (n : Nat) : Char :=
  if n < 10 then Char.ofNat (48 + n) else Char.ofNat (87 + n)

/-- Modelled from the spec (§4.1 step 3): one byte rendered as two
lowercase hex digits. -/
def byteHex (b : Nat) : List Char := [hexChar (b / 16), hexChar (b % 16)]

/-- Modelled from the spec (§4.1 step 3): the 40 hex characters of the
hex digest (the contents of the hex output as a C string). -/
def sha1hexChars (data : Nat → Nat) (databytes : Nat) : List Char :=
  (sha1bytes data databytes).flatMap byteHex

/-- Modelled from the spec (§4.1 step 3, §6): the 41-character hex output
buffer: 40 hex characters followed by the null terminator. -/
def sha1hexBuf (data : Nat → Nat) (databytes : Nat) : List Char :=
  sha1hexChars data databytes ++ ['\x00']

/-- The hex digest as a Lean string (the C-string contents of the hex
output buffer). -/
def sha1hexString (data : Nat → Nat) (databytes : Nat) : String :=
  String.mk (sha1hexChars data databytes)

/-- Modelled from the spec (§4.1 contract, §6, §7, and README.md):
the `sha1digest` call surface.  `wantDigest`/`wantHex` model whether the
caller supplied the `digest` and `hexdigest` output pointers.  If both
are omitted the call fails with a non-zero status and writes nothing;
otherwise it returns 0 and fully writes each requested output. -/
def sha1digest (wantDigest wantHex : Bool) (data : Nat → Nat) (databytes : Nat) :
    Nat × Option (List Nat) × Option (List Char) :=
  if !wantDigest && !wantHex then (1, none, none)
  else
    (0,
     if wantDigest then some (sha1bytes data databytes) else none,
     if wantHex then some (sha1hexBuf data databytes) else none)

/-! ## Input buffers -/

/-- A byte list viewed as a data buffer. -/
def listData (l : List Nat) : Nat → Nat := fun i => l.getD i 0

/-- The bytes of an ASCII string literal. -/
def strBytes (s : String) : List Nat := s.toList.map Char.toNat

/-- A string literal viewed as a data buffer. -/
def strInput (s : String) : Nat → Nat := listData (strBytes s)

/-- A buffer filled with the byte `b` (the test program's
`memset (data, 'a', 1000000)`). -/
def repData (b : Nat) : Nat → Nat := fun _ => b

/-! ## Test harness, translated from src/teeny-sha1-test.c -/

/-- The contents of a C string: the characters before the first NUL. -/
def cstr (l : List Char) : List Char := l.takeWhile (fun c => c ≠ '\x00')

/-- C `strlen` on a buffer modelled as a character list. -/
def cstrlen (l : List Char) : Nat := (cstr l).length

/-- C `tolower` restricted to ASCII, as used by `strcasecmp`. -/
def tolowerC (c : Char) : Char :=
  if 65 ≤ c.toNat ∧ c.toNat ≤ 90 then Char.ofNat (c.toNat + 32) else c

/-- ASCII `toupper`, for stating facts about uppercase known digests. -/
def toupperC (c : Char) : Char :=
  if 97 ≤ c.toNat ∧ c.toNat ≤ 122 then Char.ofNat (c.toNat - 32) else c

/-- C `strcasecmp` on C-string contents: compare character by character
under `tolower`, the first difference (or the terminator of the shorter
string against the other's next character) deciding the sign. -/
def strcasecmp : List Char → List Char → Int
  | [], [] => 0
  | [], c :: _ => 0 - ((tolowerC c).toNat : Int)
  | c :: _, [] => ((tolowerC c).toNat : Int)
  | a :: as, b :: bs =>
    if tolowerC a = tolowerC b then strcasecmp as bs
    else ((tolowerC a).toNat : Int) - ((tolowerC b).toNat : Int)

/-- From teeny-sha1-test.c `generatehex`: render the 20 bytes
`digest[0] … digest[19]` as two lowercase hex digits each
(`sprintf "%02x"`), and null-terminate at index 40. -/
def generatehex (digest : List Nat) : List Char :=
  ((List.range 20).flatMap fun idx => byteHex (digest.getD idx 0)) ++ ['\x00']

/-- From teeny-sha1-test.c `testhash`, the part after the `sha1digest`
call, as a function of the call's result `r`: return 1 if `sha1digest`
reported an error, otherwise count how many of the two digest views (the
hex output, and `generatehex` of the binary output) differ from the
known digest under `strcasecmp`. -/
def testhashWith (r : Nat × Option (List Nat) × Option (List Char))
    (knowndigest : List Char) : Nat :=
  if r.1 ≠ 0 then 1
  else
    let digest := r.2.1.getD []
    let hexdigest := r.2.2.getD []
    let binhexdigest := generatehex digest
    (if strcasecmp (cstr hexdigest) knowndigest ≠ 0 then 1 else 0) +
    (if strcasecmp (cstr binhexdigest) knowndigest ≠ 0 then 1 else 0)

/-- From teeny-sha1-test.c `testhash`: run `sha1digest` requesting both
outputs and compare both views against the known digest. -/
def testhash (data : Nat → Nat) (databytes : Nat) (knowndigest : List Char) : Nat :=
  testhashWith (sha1digest true true data databytes) knowndigest

/-- From teeny-sha1-test.c `main` (NSRL section): a hash-list line is
stored iff `strlen(line) >= 42 && line[40] == ' ' && line[41] == '^'`. -/
def qualifies (line : List Char) : Bool :=
  decide (42 ≤ cstrlen line) && (line.getD 40 '\x00' == ' ') && (line.getD 41 '\x00' == '^')

/-- From teeny-sha1-test.c `main` (NSRL section): the stored hash value:
the line with `line[40]` overwritten by NUL, copied by `strdup` — that
is, the C-string contents of the first 40 characters. -/
def storedOf (line : List Char) : List Char := cstr (line.take 40)

/-- From teeny-sha1-test.c `main` (NSRL section): the hash-collection
loop.  `hashes` and `writes` accumulate the stored values and the array
indices `nsrlhashes[hashcount]` written so far; each qualifying line is
stored at the current `hashcount` (the number of hashes stored before
it), with no bounds check. -/
def nsrlLoop : List (List Char) → List (List Char) → List Nat →
    List (List Char) × List Nat
  | [], hashes, writes => (hashes, writes)
  | line :: rest, hashes, writes =>
    if qualifies line then
      nsrlLoop rest (hashes ++ [storedOf line]) (writes ++ [hashes.length])
    else nsrlLoop rest hashes writes

/-- The stored hash list produced from the hash-list file's lines. -/
def nsrlhashes (lines : List (List Char)) : List (List Char) :=
  (nsrlLoop lines [] []).1

/-- The sequence of indices written into the 200-entry `nsrlhashes` array. -/
def nsrlWrites (lines : List (List Char)) : List Nat :=
  (nsrlLoop lines [] []).2

/-- C `sprintf "%04d"`: decimal digits, zero-padded to width 4. -/
def sprintf04d (n : Nat) : List Char :=
  let ds := Nat.toDigits 10 n
  List.replicate (4 - ds.length) '0' ++ ds

/-- From teeny-sha1-test.c `main` (NSRL section): the data-file path
`"%s/byte%04d.dat"` for file number `idx`. -/
def nsrlPath (dir : List Char) (idx : Nat) : List Char :=
  dir ++ "/byte".toList ++ sprintf04d idx ++ ".dat".toList

/-- From teeny-sha1-test.c `main` (NSRL section): the testing loop pairs
file number `idx` (path `byte%04d.dat`) with `nsrlhashes[idx]`, for
`idx = 0 … hashcount-1` in order. -/
def nsrlTests (dir : List Char) (hashes : List (List Char)) :
    List (List Char × List Char) :=
  (List.range hashes.length).map fun idx => (nsrlPath dir idx, hashes.getD idx [])

/-- From teeny-sha1-test.c `main` (NSRL section), the body of the
per-file loop after `fstat`: when the file size is positive and the read
fails, report failure (`none`, the harness's `return 1`); otherwise run
`testhash` on the buffer.  A zero-size file skips the read check. -/
def processDatafile (size : Nat) (readok : Bool) (data : Nat → Nat)
    (known : List Char) : Option Nat :=
  if size > 0 && !readok then none
  else some (testhash data size known)

/-! ## Strict evaluator (same functions, kernel-evaluable form) -/

/-- Strict application: force `x` to a numeral, substitute it into `f`. -/
def seqNat {A : Type} (x : Nat) (f : Nat → A) : A :=
  Nat.rec (motive := fun _ => A) (f 0) (fun k _ => f (k + 1)) x

/-- Raw-operation form of `rotl 5`. -/
def rotl5 (x : Nat) : Nat :=
  Nat.mod (Nat.lor (Nat.shiftLeft x 5) (Nat.shiftRight x 27)) 4294967296

/-- Raw-operation form of `rotl 30`. -/
def rotl30 (x : Nat) : Nat :=
  Nat.mod (Nat.lor (Nat.shiftLeft x 30) (Nat.shiftRight x 2)) 4294967296

/-- Raw-operation form of `rotl 1`. -/
def rotl1 (x : Nat) : Nat :=
  Nat.mod (Nat.lor (Nat.shiftLeft x 1) (Nat.shiftRight x 31)) 4294967296

/-- Raw-operation form of `fchoose`. -/
def fchooseF (b c d : Nat) : Nat :=
  Nat.lor (Nat.land b c) (Nat.land (Nat.xor 4294967295 b) d)

/-- Raw-operation form of `fparity`. -/
def fparityF (b c d : Nat) : Nat := Nat.xor (Nat.xor b c) d

/-- Raw-operation form of `fmaj`. -/
def fmajF (b c d : Nat) : Nat :=
  Nat.lor (Nat.lor (Nat.land b c) (Nat.land b d)) (Nat.land c d)

/-- One quartile of compression rounds (fixed `f` and `k`) carrying the
sliding 16-word schedule window `w0 … w15` alongside the five working
variables; returns the final variables and window. -/
def roundsQ (f : Nat → Nat → Nat → Nat) (k : Nat) :
    (fuel a b c d e w0 w1 w2 w3 w4 w5 w6 w7 w8 w9 w10 w11 w12 w13 w14 w15 : Nat) →
    Nat × Nat × Nat × Nat × Nat × Nat × Nat × Nat × Nat × Nat × Nat ×
      Nat × Nat × Nat × Nat × Nat × Nat × Nat × Nat × Nat × Nat :=
  Nat.rec
    (motive := fun _ =>
      (a b c d e w0 w1 w2 w3 w4 w5 w6 w7 w8 w9 w10 w11 w12 w13 w14 w15 : Nat) →
      Nat × Nat × Nat × Nat × Nat × Nat × Nat × Nat × Nat × Nat × Nat ×
        Nat × Nat × Nat × Nat × Nat × Nat × Nat × Nat × Nat × Nat)
    (fun a b c d e w0 w1 w2 w3 w4 w5 w6 w7 w8 w9 w10 w11 w12 w13 w14 w15 =>
      (a, b, c, d, e, w0, w1, w2, w3, w4, w5, w6, w7, w8, w9, w10, w11, w12, w13, w14, w15))
    (fun _ ih a b c d e w0 w1 w2 w3 w4 w5 w6 w7 w8 w9 w10 w11 w12 w13 w14 w15 =>
      ih (Nat.mod (Nat.add (Nat.add (Nat.add (Nat.add (rotl5 a) (f b c d)) e) k) w0) 4294967296)
        a (rotl30 b) c d
        w1 w2 w3 w4 w5 w6 w7 w8 w9 w10 w11 w12 w13 w14 w15
        (rotl1 (Nat.xor (Nat.xor (Nat.xor w13 w8) w2) w0)))

/-- Force all five components of a hash state before continuing. -/
def force5 {A : Type} (h : Nat × Nat × Nat × Nat × Nat)
    (f : Nat × Nat × Nat × Nat × Nat → A) : A :=
  seqNat h.1 fun a => seqNat h.2.1 fun b => seqNat h.2.2.1 fun c =>
    seqNat h.2.2.2.1 fun d => seqNat h.2.2.2.2 fun e => f (a, b, c, d, e)

/-- Strict-evaluator form of `processBlock`: the four quartiles run in
sequence on the window initialized with the block's 16 words. -/
def processBlockF (data : Nat → Nat) (databytes blk : Nat)
    (h : Nat × Nat × Nat × Nat × Nat) : Nat × Nat × Nat × Nat × Nat :=
  let w := fun j => wordAt data databytes blk j
  let s1 := roundsQ fchooseF 1518500249 20 h.1 h.2.1 h.2.2.1 h.2.2.2.1 h.2.2.2.2
    (w 0) (w 1) (w 2) (w 3) (w 4) (w 5) (w 6) (w 7) (w 8) (w 9) (w 10)
    (w 11) (w 12) (w 13) (w 14) (w 15)
  let s2 := roundsQ fparityF 1859775393 20 s1.1 s1.2.1 s1.2.2.1 s1.2.2.2.1 s1.2.2.2.2.1
    s1.2.2.2.2.2.1 s1.2.2.2.2.2.2.1 s1.2.2.2.2.2.2.2.1 s1.2.2.2.2.2.2.2.2.1
    s1.2.2.2.2.2.2.2.2.2.1 s1.2.2.2.2.2.2.2.2.2.2.1 s1.2.2.2.2.2.2.2.2.2.2.2.1
    s1.2.2.2.2.2.2.2.2.2.2.2.2.1 s1.2.2.2.2.2.2.2.2.2.2.2.2.2.1
    s1.2.2.2.2.2.2.2.2.2.2.2.2.2.2.1 s1.2.2.2.2.2.2.2.2.2.2.2.2.2.2.2.1
    s1.2.2.2.2.2.2.2.2.2.2.2.2.2.2.2.2.1 s1.2.2.2.2.2.2.2.2.2.2.2.2.2.2.2.2.2.1
    s1.2.2.2.2.2.2.2.2.2.2.2.2.2.2.2.2.2.2.1 s1.2.2.2.2.2.2.2.2.2.2.2.2.2.2.2.2.2.2.2.1
    s1.2.2.2.2.2.2.2.2.2.2.2.2.2.2.2.2.2.2.2.2
  let s3 := roundsQ fmajF 2400959708 20 s2.1 s2.2.1 s2.2.2.1 s2.2.2.2.1 s2.2.2.2.2.1
    s2.2.2.2.2.2.1 s2.2.2.2.2.2.2.1 s2.2.2.2.2.2.2.2.1 s2.2.2.2.2.2.2.2.2.1
    s2.2.2.2.2.2.2.2.2.2.1 s2.2.2.2.2.2.2.2.2.2.2.1 s2.2.2.2.2.2.2.2.2.2.2.2.1
    s2.2.2.2.2.2.2.2.2.2.2.2.2.1 s2.2.2.2.2.2.2.2.2.2.2.2.2.2.1
    s2.2.2.2.2.2.2.2.2.2.2.2.2.2.2.1 s2.2.2.2.2.2.2.2.2.2.2.2.2.2.2.2.1
    s2.2.2.2.2.2.2.2.2.2.2.2.2.2.2.2.2.1 s2.2.2.2.2.2.2.2.2.2.2.2.2.2.2.2.2.2.1
    s2.2.2.2.2.2.2.2.2.2.2.2.2.2.2.2.2.2.2.1 s2.2.2.2.2.2.2.2.2.2.2.2.2.2.2.2.2.2.2.2.1
    s2.2.2.2.2.2.2.2.2.2.2.2.2.2.2.2.2.2.2.2.2
  let s4 := roundsQ fparityF 3395469782 20 s3.1 s3.2.1 s3.2.2.1 s3.2.2.2.1 s3.2.2.2.2.1
    s3.2.2.2.2.2.1 s3.2.2.2.2.2.2.1 s3.2.2.2.2.2.2.2.1 s3.2.2.2.2.2.2.2.2.1
    s3.2.2.2.2.2.2.2.2.2.1 s3.2.2.2.2.2.2.2.2.2.2.1 s3.2.2.2.2.2.2.2.2.2.2.2.1
    s3.2.2.2.2.2.2.2.2.2.2.2.2.1 s3.2.2.2.2.2.2.2.2.2.2.2.2.2.1
    s3.2.2.2.2.2.2.2.2.2.2.2.2.2.2.1 s3.2.2.2.2.2.2.2.2.2.2.2.2.2.2.2.1
    s3.2.2.2.2.2.2.2.2.2.2.2.2.2.2.2.2.1 s3.2.2.2.2.2.2.2.2.2.2.2.2.2.2.2.2.2.1
    s3.2.2.2.2.2.2.2.2.2.2.2.2.2.2.2.2.2.2.1 s3.2.2.2.2.2.2.2.2.2.2.2.2.2.2.2.2.2.2.2.1
    s3.2.2.2.2.2.2.2.2.2.2.2.2.2.2.2.2.2.2.2.2
  (Nat.mod (Nat.add h.1 s4.1) 4294967296,
   Nat.mod (Nat.add h.2.1 s4.2.1) 4294967296,
   Nat.mod (Nat.add h.2.2.1 s4.2.2.1) 4294967296,
   Nat.mod (Nat.add h.2.2.2.1 s4.2.2.2.1) 4294967296,
   Nat.mod (Nat.add h.2.2.2.2 s4.2.2.2.2.1) 4294967296)

/-- Strict-evaluator form of `processBlocks`: each block's resulting hash
state and the next block index are forced to numerals before recursing. -/
def blocksF (data : Nat → Nat) (databytes : Nat) :
    (n blk : Nat) → (Nat × Nat × Nat × Nat × Nat) → Nat × Nat × Nat × Nat × Nat :=
  Nat.rec (motive := fun _ => Nat → (Nat × Nat × Nat × Nat × Nat) → Nat × Nat × Nat × Nat × Nat)
    (fun _ s => s)
    (fun _ ih blk s =>
      force5 (processBlockF data databytes blk s) (fun h => seqNat (blk + 1) (fun b => ih b h)))

/-- Strict-evaluator form of `sha1state`. -/
def sha1stateF (data : Nat → Nat) (databytes : Nat) : Nat × Nat × Nat × Nat × Nat :=
  blocksF data databytes (padLen databytes / 64) 0 initState

/-- The block step of `processBlockF` specialised to a full data block of the
million-byte vector `repData 97`: all sixteen initial schedule-window words
are folded to the literal word 0x61616161 (four repetitions of the byte
0x61 = 97), which removes the per-block `wordAt` evaluations. The body is
`processBlockF` with each `(w j)` replaced by that literal; the equality is
proved in `processBlockL_eq`. -/
def processBlockL (h : Nat × Nat × Nat × Nat × Nat) : Nat × Nat × Nat × Nat × Nat :=
  let s1 := roundsQ fchooseF 1518500249 20 h.1 h.2.1 h.2.2.1 h.2.2.2.1 h.2.2.2.2
    1633771873 1633771873 1633771873 1633771873 1633771873 1633771873 1633771873 1633771873
    1633771873 1633771873 1633771873 1633771873 1633771873 1633771873 1633771873 1633771873
  let s2 := roundsQ fparityF 1859775393 20 s1.1 s1.2.1 s1.2.2.1 s1.2.2.2.1 s1.2.2.2.2.1
    s1.2.2.2.2.2.1 s1.2.2.2.2.2.2.1 s1.2.2.2.2.2.2.2.1 s1.2.2.2.2.2.2.2.2.1
    s1.2.2.2.2.2.2.2.2.2.1 s1.2.2.2.2.2.2.2.2.2.2.1 s1.2.2.2.2.2.2.2.2.2.2.2.1
    s1.2.2.2.2.2.2.2.2.2.2.2.2.1 s1.2.2.2.2.2.2.2.2.2.2.2.2.2.1
    s1.2.2.2.2.2.2.2.2.2.2.2.2.2.2.1 s1.2.2.2.2.2.2.2.2.2.2.2.2.2.2.2.1
    s1.2.2.2.2.2.2.2.2.2.2.2.2.2.2.2.2.1 s1.2.2.2.2.2.2.2.2.2.2.2.2.2.2.2.2.2.1
    s1.2.2.2.2.2.2.2.2.2.2.2.2.2.2.2.2.2.2.1 s1.2.2.2.2.2.2.2.2.2.2.2.2.2.2.2.2.2.2.2.1
    s1.2.2.2.2.2.2.2.2.2.2.2.2.2.2.2.2.2.2.2.2
  let s3 := roundsQ fmajF 2400959708 20 s2.1 s2.2.1 s2.2.2.1 s2.2.2.2.1 s2.2.2.2.2.1
    s2.2.2.2.2.2.1 s2.2.2.2.2.2.2.1 s2.2.2.2.2.2.2.2.1 s2.2.2.2.2.2.2.2.2.1
    s2.2.2.2.2.2.2.2.2.2.1 s2.2.2.2.2.2.2.2.2.2.2.1 s2.2.2.2.2.2.2.2.2.2.2.2.1
    s2.2.2.2.2.2.2.2.2.2.2.2.2.1 s2.2.2.2.2.2.2.2.2.2.2.2.2.2.1
    s2.2.2.2.2.2.2.2.2.2.2.2.2.2.2.1 s2.2.2.2.2.2.2.2.2.2.2.2.2.2.2.2.1
    s2.2.2.2.2.2.2.2.2.2.2.2.2.2.2.2.2.1 s2.2.2.2.2.2.2.2.2.2.2.2.2.2.2.2.2.2.1
    s2.2.2.2.2.2.2.2.2.2.2.2.2.2.2.2.2.2.2.1 s2.2.2.2.2.2.2.2.2.2.2.2.2.2.2.2.2.2.2.2.1
    s2.2.2.2.2.2.2.2.2.2.2.2.2.2.2.2.2.2.2.2.2
  let s4 := roundsQ fparityF 3395469782 20 s3.1 s3.2.1 s3.2.2.1 s3.2.2.2.1 s3.2.2.2.2.1
    s3.2.2.2.2.2.1 s3.2.2.2.2.2.2.1 s3.2.2.2.2.2.2.2.1 s3.2.2.2.2.2.2.2.2.1
    s3.2.2.2.2.2.2.2.2.2.1 s3.2.2.2.2.2.2.2.2.2.2.1 s3.2.2.2.2.2.2.2.2.2.2.2.1
    s3.2.2.2.2.2.2.2.2.2.2.2.2.1 s3.2.2.2.2.2.2.2.2.2.2.2.2.2.1
    s3.2.2.2.2.2.2.2.2.2.2.2.2.2.2.1 s3.2.2.2.2.2.2.2.2.2.2.2.2.2.2.2.1
    s3.2.2.2.2.2.2.2.2.2.2.2.2.2.2.2.2.1 s3.2.2.2.2.2.2.2.2.2.2.2.2.2.2.2.2.2.1
    s3.2.2.2.2.2.2.2.2.2.2.2.2.2.2.2.2.2.2.1 s3.2.2.2.2.2.2.2.2.2.2.2.2.2.2.2.2.2.2.2.1
    s3.2.2.2.2.2.2.2.2.2.2.2.2.2.2.2.2.2.2.2.2
  (Nat.mod (Nat.add h.1 s4.1) 4294967296,
   Nat.mod (Nat.add h.2.1 s4.2.1) 4294967296,
   Nat.mod (Nat.add h.2.2.1 s4.2.2.1) 4294967296,
   Nat.mod (Nat.add h.2.2.2.1 s4.2.2.2.1) 4294967296,
   Nat.mod (Nat.add h.2.2.2.2 s4.2.2.2.2.1) 4294967296)

/-- Iterate `processBlockL` over `n` full data blocks of the million-byte
vector, forcing the hash state to numerals between blocks. -/
def blocksL : (n : Nat) → (Nat × Nat × Nat × Nat × Nat) → Nat × Nat × Nat × Nat × Nat :=
  Nat.rec (motive := fun _ => (Nat × Nat × Nat × Nat × Nat) → Nat × Nat × Nat × Nat × Nat)
    (fun s => s)
    (fun _ ih s => force5 (processBlockL s) (fun h => ih h))

/-! ## Basic lemmas about the strict evaluator -/

theorem seqNat_eq {A : Type} (x : Nat) (f : Nat → A) : seqNat x f = f x := by
  cases x <;> rfl

theorem force5_eq {A : Type} (h : Nat × Nat × Nat × Nat × Nat)
    (f : Nat × Nat × Nat × Nat × Nat → A) : force5 h f = f h := by
  unfold force5
  rw [seqNat_eq, seqNat_eq, seqNat_eq, seqNat_eq, seqNat_eq]

theorem rotl5_eq (x : Nat) : rotl5 x = rotl 5 x := rfl

theorem rotl30_eq (x : Nat) : rotl30 x = rotl 30 x := rfl

theorem rotl1_eq (x : Nat) : rotl1 x = rotl 1 x := rfl

theorem fchooseF_eq : fchooseF = fchoose := rfl

theorem fparityF_eq : fparityF = fparity := rfl

theorem fmajF_eq : fmajF = fmaj := rfl

/-! ## The round table -/

theorem roundF_q0 {t : Nat} (h : t < 20) : roundF t = fchoose := by
  unfold roundF; rw [if_pos h]

theorem roundF_q1 {t : Nat} (h1 : 20 ≤ t) (h2 : t < 40) : roundF t = fparity := by
  unfold roundF; rw [if_neg (by omega), if_pos h2]

theorem roundF_q2 {t : Nat} (h1 : 40 ≤ t) (h2 : t < 60) : roundF t = fmaj := by
  unfold roundF; rw [if_neg (by omega), if_neg (by omega), if_pos h2]

theorem roundF_q3 {t : Nat} (h1 : 60 ≤ t) : roundF t = fparity := by
  unfold roundF; rw [if_neg (by omega), if_neg (by omega), if_neg (by omega)]

theorem roundK_q0 {t : Nat} (h : t < 20) : roundK t = 0x5A827999 := by
  unfold roundK; rw [if_pos h]

theorem roundK_q1 {t : Nat} (h1 : 20 ≤ t) (h2 : t < 40) : roundK t = 0x6ED9EBA1 := by
  unfold roundK; rw [if_neg (by omega), if_pos h2]

theorem roundK_q2 {t : Nat} (h1 : 40 ≤ t) (h2 : t < 60) : roundK t = 0x8F1BBCDC := by
  unfold roundK; rw [if_neg (by omega), if_neg (by omega), if_pos h2]

theorem roundK_q3 {t : Nat} (h1 : 60 ≤ t) : roundK t = 0xCA62C1D6 := by
  unfold roundK; rw [if_neg (by omega), if_neg (by omega), if_neg (by omega)]

/-! ## The message schedule -/

theorem sched_lt {data : Nat → Nat} {databytes blk j : Nat} (h : j < 16) :
    sched data databytes blk j = wordAt data databytes blk j := by
  rw [sched]; exact dif_pos h

theorem sched_ge {data : Nat → Nat} {databytes blk j : Nat} (h : 16 ≤ j) :
    sched data databytes blk j =
      rotl 1 (sched data databytes blk (j - 3) ^^^ sched data databytes blk (j - 8) ^^^
        sched data databytes blk (j - 14) ^^^ sched data databytes blk (j - 16)) := by
  rw [sched]; exact dif_neg (by omega)

/-! ## Unfolding equations for the `Nat.rec` loops -/

theorem roundsT_zero (W : Nat → Nat) (t : Nat) (s : Nat × Nat × Nat × Nat × Nat) :
    roundsT W 0 t s = s := rfl

theorem roundsT_succ (W : Nat → Nat) (fuel t : Nat) (s : Nat × Nat × Nat × Nat × Nat) :
    roundsT W (fuel + 1) t s =
      roundsT W fuel (t + 1)
        ((rotl 5 s.1 + roundF t s.2.1 s.2.2.1 s.2.2.2.1 + s.2.2.2.2 + roundK t + W t) % 2 ^ 32,
         s.1, rotl 30 s.2.1, s.2.2.1, s.2.2.2.1) := rfl

theorem processBlocks_zero (data : Nat → Nat) (databytes blk : Nat)
    (s : Nat × Nat × Nat × Nat × Nat) : processBlocks data databytes 0 blk s = s := rfl

theorem processBlocks_succ (data : Nat → Nat) (databytes n blk : Nat)
    (s : Nat × Nat × Nat × Nat × Nat) :
    processBlocks data databytes (n + 1) blk s =
      processBlocks data databytes n (blk + 1) (processBlock data databytes blk s) := rfl

theorem blocksF_zero (data : Nat → Nat) (databytes blk : Nat)
    (s : Nat × Nat × Nat × Nat × Nat) : blocksF data databytes 0 blk s = s := rfl

theorem blocksF_succ (data : Nat → Nat) (databytes n blk : Nat)
    (s : Nat × Nat × Nat × Nat × Nat) :
    blocksF data databytes (n + 1) blk s =
      blocksF data databytes n (blk + 1) (processBlockF data databytes blk s) := by
  show force5 (processBlockF data databytes blk s)
      (fun h => seqNat (blk + 1) (fun b => blocksF data databytes n b h)) = _
  rw [force5_eq, seqNat_eq]

theorem roundsQ_zero (f : Nat → Nat → Nat → Nat)
    (k a b c d e w0 w1 w2 w3 w4 w5 w6 w7 w8 w9 w10 w11 w12 w13 w14 w15 : Nat) :
    roundsQ f k 0 a b c d e w0 w1 w2 w3 w4 w5 w6 w7 w8 w9 w10 w11 w12 w13 w14 w15 =
      (a, b, c, d, e, w0, w1, w2, w3, w4, w5, w6, w7, w8, w9, w10, w11, w12, w13, w14, w15) :=
  rfl

theorem roundsQ_succ (f : Nat → Nat → Nat → Nat)
    (k fuel a b c d e w0 w1 w2 w3 w4 w5 w6 w7 w8 w9 w10 w11 w12 w13 w14 w15 : Nat) :
    roundsQ f k (fuel + 1) a b c d e w0 w1 w2 w3 w4 w5 w6 w7 w8 w9 w10 w11 w12 w13 w14 w15 =
      roundsQ f k fuel
        (Nat.mod (Nat.add (Nat.add (Nat.add (Nat.add (rotl5 a) (f b c d)) e) k) w0) 4294967296)
        a (rotl30 b) c d
        w1 w2 w3 w4 w5 w6 w7 w8 w9 w10 w11 w12 w13 w14 w15
        (rotl1 (Nat.xor (Nat.xor (Nat.xor w13 w8) w2) w0)) :=
  rfl

theorem blocksF_add (data : Nat → Nat) (databytes : Nat) (p : Nat) :
    ∀ q blk s, blocksF data databytes (p + q) blk s =
      blocksF data databytes q (blk + p) (blocksF data databytes p blk s) := by
  induction p with
  | zero => intro q blk s; simp [blocksF_zero]
  | succ p ih =>
    intro q blk s
    have hsplit : p + 1 + q = (p + q) + 1 := by omega
    rw [hsplit, blocksF_succ, blocksF_succ, ih]
    have hblk : blk + 1 + p = blk + (p + 1) := by omega
    rw [hblk]

/-! ## The sliding window refines the message schedule -/

/-- Running one quartile of the strict evaluator on a window holding the
schedule words `W t … W (t+15)` computes exactly the reference rounds
`t … t+fuel-1`, and leaves the window holding `W (t+fuel) … W (t+fuel+15)`
— provided `W` satisfies the schedule recurrence and the round table is
constantly `(f, k)` on the covered rounds. -/
theorem roundsQ_eq (W : Nat → Nat)
    (hW : ∀ j, 16 ≤ j →
      W j = rotl 1 (W (j - 3) ^^^ W (j - 8) ^^^ W (j - 14) ^^^ W (j - 16)))
    (f : Nat → Nat → Nat → Nat) (k : Nat) :
    ∀ fuel t a b c d e w0 w1 w2 w3 w4 w5 w6 w7 w8 w9 w10 w11 w12 w13 w14 w15,
      (w0 = W t ∧ w1 = W (t + 1) ∧ w2 = W (t + 2) ∧ w3 = W (t + 3) ∧ w4 = W (t + 4) ∧
       w5 = W (t + 5) ∧ w6 = W (t + 6) ∧ w7 = W (t + 7) ∧ w8 = W (t + 8) ∧ w9 = W (t + 9) ∧
       w10 = W (t + 10) ∧ w11 = W (t + 11) ∧ w12 = W (t + 12) ∧ w13 = W (t + 13) ∧
       w14 = W (t + 14) ∧ w15 = W (t + 15)) →
      (∀ s, t ≤ s → s < t + fuel → roundF s = f ∧ roundK s = k) →
      roundsQ f k fuel a b c d e w0 w1 w2 w3 w4 w5 w6 w7 w8 w9 w10 w11 w12 w13 w14 w15 =
        ((roundsT W fuel t (a, b, c, d, e)).1,
         (roundsT W fuel t (a, b, c, d, e)).2.1,
         (roundsT W fuel t (a, b, c, d, e)).2.2.1,
         (roundsT W fuel t (a, b, c, d, e)).2.2.2.1,
         (roundsT W fuel t (a, b, c, d, e)).2.2.2.2,
         W (t + fuel), W (t + fuel + 1), W (t + fuel + 2), W (t + fuel + 3),
         W (t + fuel + 4), W (t + fuel + 5), W (t + fuel + 6), W (t + fuel + 7),
         W (t + fuel + 8), W (t + fuel + 9), W (t + fuel + 10), W (t + fuel + 11),
         W (t + fuel + 12), W (t + fuel + 13), W (t + fuel + 14), W (t + fuel + 15)) := by
  intro fuel
  induction fuel with
  | zero =>
    intro t a b c d e w0 w1 w2 w3 w4 w5 w6 w7 w8 w9 w10 w11 w12 w13 w14 w15 hw _
    obtain ⟨rfl, rfl, rfl, rfl, rfl, rfl, rfl, rfl, rfl, rfl, rfl, rfl, rfl, rfl, rfl, rfl⟩ := hw
    rfl
  | succ fuel ih =>
    intro t a b c d e w0 w1 w2 w3 w4 w5 w6 w7 w8 w9 w10 w11 w12 w13 w14 w15 hw hfk
    obtain ⟨rfl, rfl, rfl, rfl, rfl, rfl, rfl, rfl, rfl, rfl, rfl, rfl, rfl, rfl, rfl, rfl⟩ := hw
    rw [roundsQ_succ]
    have hf : roundF t = f := (hfk t (Nat.le_refl t) (by omega)).1
    have hk : roundK t = k := (hfk t (Nat.le_refl t) (by omega)).2
    have hlast :
        rotl1 (Nat.xor (Nat.xor (Nat.xor (W (t + 13)) (W (t + 8))) (W (t + 2))) (W t)) =
          W (t + 1 + 15) := by
      rw [hW (t + 16) (by omega)]
      rfl
    rw [hlast]
    rw [ih (t + 1)
      (Nat.mod (Nat.add (Nat.add (Nat.add (Nat.add (rotl5 a) (f b c d)) e) k) (W t)) 4294967296)
      a (rotl30 b) c d
      (W (t + 1)) (W (t + 2)) (W (t + 3)) (W (t + 4)) (W (t + 5)) (W (t + 6)) (W (t + 7))
      (W (t + 8)) (W (t + 9)) (W (t + 10)) (W (t + 11)) (W (t + 12)) (W (t + 13)) (W (t + 14))
      (W (t + 15)) (W (t + 1 + 15))
      ⟨rfl, rfl, rfl, rfl, rfl, rfl, rfl, rfl, rfl, rfl, rfl, rfl, rfl, rfl, rfl, rfl⟩
      (fun s hs1 hs2 => hfk s (by omega) (by omega))]
    rw [roundsT_succ]
    rw [hf, hk]
    have hidx : t + 1 + fuel = t + (fuel + 1) := by omega
    rw [hidx]
    rfl

theorem roundsT_add (W : Nat → Nat) (p : Nat) :
    ∀ q t s, roundsT W (p + q) t s = roundsT W q (t + p) (roundsT W p t s) := by
  induction p with
  | zero => intro q t s; simp [roundsT_zero]
  | succ p ih =>
    intro q t s
    have hsplit : p + 1 + q = (p + q) + 1 := by omega
    rw [hsplit, roundsT_succ, roundsT_succ, ih]
    have ht : t + 1 + p = t + (p + 1) := by omega
    rw [ht]

set_option maxRecDepth 100000 in
set_option maxHeartbeats 2000000 in
/-- The strict per-block evaluator computes the reference per-block
compression. -/
theorem processBlockF_eq (data : Nat → Nat) (databytes blk : Nat)
    (h : Nat × Nat × Nat × Nat × Nat) :
    processBlockF data databytes blk h = processBlock data databytes blk h := by
  have hW : ∀ j, 16 ≤ j →
      sched data databytes blk j =
        rotl 1 (sched data databytes blk (j - 3) ^^^ sched data databytes blk (j - 8) ^^^
          sched data databytes blk (j - 14) ^^^ sched data databytes blk (j - 16)) :=
    fun j hj => sched_ge hj
  have hw : ∀ j, j < 16 → wordAt data databytes blk j = sched data databytes blk j :=
    fun j hj => (sched_lt hj).symm
  have hfk0 : ∀ s, 0 ≤ s → s < 0 + 20 → roundF s = fchooseF ∧ roundK s = 1518500249 :=
    fun s _ hs => ⟨(roundF_q0 (by omega)).trans fchooseF_eq.symm, roundK_q0 (by omega)⟩
  have hfk1 : ∀ s, 20 ≤ s → s < 20 + 20 → roundF s = fparityF ∧ roundK s = 1859775393 :=
    fun s hs1 hs2 =>
      ⟨(roundF_q1 (by omega) (by omega)).trans fparityF_eq.symm, roundK_q1 (by omega) (by omega)⟩
  have hfk2 : ∀ s, 40 ≤ s → s < 40 + 20 → roundF s = fmajF ∧ roundK s = 2400959708 :=
    fun s hs1 hs2 =>
      ⟨(roundF_q2 (by omega) (by omega)).trans fmajF_eq.symm, roundK_q2 (by omega) (by omega)⟩
  have hfk3 : ∀ s, 60 ≤ s → s < 60 + 20 → roundF s = fparityF ∧ roundK s = 3395469782 :=
    fun s hs1 hs2 => ⟨(roundF_q3 (by omega)).trans fparityF_eq.symm, roundK_q3 (by omega)⟩
  simp only [processBlockF]
  rw [roundsQ_eq (sched data databytes blk) hW fchooseF 1518500249 20 0
    h.1 h.2.1 h.2.2.1 h.2.2.2.1 h.2.2.2.2 _ _ _ _ _ _ _ _ _ _ _ _ _ _ _ _
    ⟨hw 0 (by omega), hw 1 (by omega), hw 2 (by omega), hw 3 (by omega), hw 4 (by omega),
     hw 5 (by omega), hw 6 (by omega), hw 7 (by omega), hw 8 (by omega), hw 9 (by omega),
     hw 10 (by omega), hw 11 (by omega), hw 12 (by omega), hw 13 (by omega), hw 14 (by omega),
     hw 15 (by omega)⟩ hfk0]
  dsimp only
  rw [roundsQ_eq (sched data databytes blk) hW fparityF 1859775393 20 20
    _ _ _ _ _ _ _ _ _ _ _ _ _ _ _ _ _ _ _ _ _
    ⟨rfl, rfl, rfl, rfl, rfl, rfl, rfl, rfl, rfl, rfl, rfl, rfl, rfl, rfl, rfl, rfl⟩ hfk1]
  dsimp only
  rw [roundsQ_eq (sched data databytes blk) hW fmajF 2400959708 20 40
    _ _ _ _ _ _ _ _ _ _ _ _ _ _ _ _ _ _ _ _ _
    ⟨rfl, rfl, rfl, rfl, rfl, rfl, rfl, rfl, rfl, rfl, rfl, rfl, rfl, rfl, rfl, rfl⟩ hfk2]
  dsimp only
  rw [roundsQ_eq (sched data databytes blk) hW fparityF 3395469782 20 60
    _ _ _ _ _ _ _ _ _ _ _ _ _ _ _ _ _ _ _ _ _
    ⟨rfl, rfl, rfl, rfl, rfl, rfl, rfl, rfl, rfl, rfl, rfl, rfl, rfl, rfl, rfl, rfl⟩ hfk3]
  dsimp only
  show _ = processBlock data databytes blk h
  simp only [processBlock]
  rw [show (80 : Nat) = 20 + 60 from rfl, roundsT_add,
    show (60 : Nat) = 20 + 40 from rfl, roundsT_add,
    show (40 : Nat) = 20 + 20 from rfl, roundsT_add]
  have tupleEta : ∀ s : Nat × Nat × Nat × Nat × Nat,
      ((s.1, s.2.1, s.2.2.1, s.2.2.2.1, s.2.2.2.2) : Nat × Nat × Nat × Nat × Nat) = s :=
    fun _ => rfl
  simp only [tupleEta]
  rw [show (0 + 20 + 20 + 20 : Nat) = 60 from rfl, show (0 + 20 + 20 : Nat) = 40 from rfl,
    show (0 + 20 : Nat) = 20 from rfl]
  rfl

/-- The strict block fold computes the reference block fold. -/
theorem blocksF_eq (data : Nat → Nat) (databytes : Nat) (n : Nat) :
    ∀ blk s, blocksF data databytes n blk s = processBlocks data databytes n blk s := by
  induction n with
  | zero => intro blk s; rfl
  | succ n ih =>
    intro blk s
    rw [blocksF_succ, processBlocks_succ, processBlockF_eq, ih]

/-- The strict evaluator computes the reference hash state. -/
theorem sha1stateF_eq (data : Nat → Nat) (databytes : Nat) :
    sha1stateF data databytes = sha1state data databytes := by
  unfold sha1stateF sha1state
  rw [blocksF_eq]

/-! ## Serialization lemmas -/

theorem sha1bytes_length (data : Nat → Nat) (databytes : Nat) :
    (sha1bytes data databytes).length = 20 := by
  simp [sha1bytes, wordBytes]

theorem sha1bytes_lt (data : Nat → Nat) (databytes : Nat) :
    ∀ b ∈ sha1bytes data databytes, b < 256 := by
  intro b hb
  simp only [sha1bytes, wordBytes, List.mem_append, List.mem_cons,
    List.not_mem_nil, or_false] at hb
  omega

theorem flatMap_length_two (l : List Nat) : (l.flatMap byteHex).length = 2 * l.length := by
  induction l with
  | nil => rfl
  | cons b l ih => simp [List.flatMap_cons, byteHex, ih]; omega

theorem sha1hexChars_length (data : Nat → Nat) (databytes : Nat) :
    (sha1hexChars data databytes).length = 40 := by
  unfold sha1hexChars
  rw [flatMap_length_two, sha1bytes_length]

theorem hexChar_lt_ne_null : ∀ m, m < 16 → hexChar m ≠ '\x00' := by decide

theorem sha1hexChars_mem (data : Nat → Nat) (databytes : Nat) :
    ∀ c ∈ sha1hexChars data databytes, ∃ m, m < 16 ∧ c = hexChar m := by
  intro c hc
  simp only [sha1hexChars, List.mem_flatMap] at hc
  obtain ⟨b, hb, hcb⟩ := hc
  have hblt : b < 256 := sha1bytes_lt data databytes b hb
  simp only [byteHex, List.mem_cons, List.not_mem_nil, or_false] at hcb
  rcases hcb with rfl | rfl
  · exact ⟨b / 16, by omega, rfl⟩
  · exact ⟨b % 16, Nat.mod_lt _ (by norm_num), rfl⟩

theorem sha1hexChars_ne_null (data : Nat → Nat) (databytes : Nat) :
    ∀ c ∈ sha1hexChars data databytes, c ≠ '\x00' := by
  intro c hc
  obtain ⟨m, hm, rfl⟩ := sha1hexChars_mem data databytes c hc
  exact hexChar_lt_ne_null m hm

theorem cstr_append_null (l : List Char) (h : ∀ c ∈ l, c ≠ '\x00') :
    cstr (l ++ ['\x00']) = l := by
  induction l with
  | nil => rfl
  | cons c l ih =>
    have hc : c ≠ '\x00' := h c (List.mem_cons_self c l)
    simp only [cstr, List.cons_append, List.takeWhile_cons, decide_eq_true_eq]
    rw [if_pos hc]
    have := ih (fun x hx => h x (List.mem_cons_of_mem c hx))
    simpa [cstr] using this

theorem cstr_sha1hexBuf (data : Nat → Nat) (databytes : Nat) :
    cstr (sha1hexBuf data databytes) = sha1hexChars data databytes :=
  cstr_append_null _ (sha1hexChars_ne_null data databytes)

theorem flatMap_range_getD (bs : List Nat) :
    (List.range bs.length).flatMap (fun i => byteHex (bs.getD i 0)) = bs.flatMap byteHex := by
  induction bs with
  | nil => rfl
  | cons b bs ih =>
    rw [show (b :: bs).length = bs.length + 1 from rfl, List.range_succ_eq_map,
      List.flatMap_cons, List.flatMap_map]
    simp only [List.getD_cons_zero, List.getD_cons_succ]
    rw [ih]
    rfl

/-- `generatehex` of the engine's binary digest is exactly the engine's
hex output buffer. -/
theorem generatehex_sha1bytes (data : Nat → Nat) (databytes : Nat) :
    generatehex (sha1bytes data databytes) = sha1hexBuf data databytes := by
  unfold generatehex sha1hexBuf sha1hexChars
  rw [show (20 : Nat) = (sha1bytes data databytes).length from
    (sha1bytes_length data databytes).symm]
  rw [flatMap_range_getD]

/-! ## Claims C3, C4, C5, C6 -/

/-- C3: for every input buffer and length, when a single `sha1digest`
call is asked for both outputs, rendering the 20-byte binary digest as
two lowercase hex characters per byte (the test program's
`generatehex`) yields exactly the hexdigest output of that same call. -/
theorem C3_binary_and_hex_views_agree :
    ∀ (data : Nat → Nat) (databytes : Nat) (dg : List Nat) (hx : List Char),
      sha1digest true true data databytes = (0, some dg, some hx) →
      generatehex dg = hx := by
  intro data databytes dg hx h
  simp only [sha1digest, Bool.not_true, Bool.and_self, Bool.false_and, if_neg,
    Bool.false_eq_true, not_false_iff, if_true, if_pos, Prod.mk.injEq,
    Option.some.injEq] at h
  obtain ⟨-, hdg, hhx⟩ := h
  rw [← hdg, ← hhx]
  exact generatehex_sha1bytes data databytes

theorem C3_witness :
    generatehex (sha1bytes (strInput "abc") 3) = sha1hexBuf (strInput "abc") 3 :=
  C3_binary_and_hex_views_agree (strInput "abc") 3 _ _ rfl

/-- C4: `sha1digest` fails (returns non-zero) if and only if both output
destinations are omitted; on that failure it writes to neither output,
and in every other case it returns 0 and fully writes each requested
output. -/
theorem C4_invalid_arguments_iff :
    ∀ (wd wh : Bool) (data : Nat → Nat) (databytes : Nat),
      ((sha1digest wd wh data databytes).1 ≠ 0 ↔ wd = false ∧ wh = false) ∧
      (wd = false ∧ wh = false → sha1digest wd wh data databytes = (1, none, none)) ∧
      (wd = true ∨ wh = true →
        (sha1digest wd wh data databytes).1 = 0 ∧
        (sha1digest wd wh data databytes).2.1 =
          (if wd then some (sha1bytes data databytes) else none) ∧
        (sha1digest wd wh data databytes).2.2 =
          (if wh then some (sha1hexBuf data databytes) else none)) := by
  intro wd wh data databytes
  cases wd <;> cases wh <;> simp [sha1digest]

theorem C4_witness :
    sha1digest false false (strInput "") 0 = (1, none, none) ∧
    (sha1digest true true (strInput "") 0).1 = 0 :=
  ⟨(C4_invalid_arguments_iff false false (strInput "") 0).2.1 ⟨rfl, rfl⟩,
   ((C4_invalid_arguments_iff true true (strInput "") 0).2.2 (Or.inl rfl)).1⟩

/-- C5: for every input length, a successful `sha1digest` call writes a
binary digest of exactly 20 bytes, and a hex buffer of exactly 40
characters (its C-string length) followed by a null terminator at
index 40 — the buffer holding exactly 41 characters. -/
theorem C5_output_lengths :
    ∀ (wd wh : Bool) (data : Nat → Nat) (databytes : Nat),
      (∀ dg, (sha1digest wd wh data databytes).2.1 = some dg → dg.length = 20) ∧
      (∀ hx, (sha1digest wd wh data databytes).2.2 = some hx →
        hx.length = 41 ∧ hx.getD 40 'x' = '\x00' ∧ cstrlen hx = 40) := by
  intro wd wh data databytes
  have hdg : (sha1bytes data databytes).length = 20 := sha1bytes_length data databytes
  have hbuf : (sha1hexBuf data databytes).length = 41 := by
    simp [sha1hexBuf, sha1hexChars_length]
  have hterm : (sha1hexBuf data databytes).getD 40 'x' = '\x00' := by
    unfold sha1hexBuf
    rw [List.getD_eq_getElem?_getD, List.getElem?_append_right (by
      rw [sha1hexChars_length])]
    rw [sha1hexChars_length]
    rfl
  have hclen : cstrlen (sha1hexBuf data databytes) = 40 := by
    unfold cstrlen
    rw [cstr_sha1hexBuf, sha1hexChars_length]
  refine ⟨fun dg h => ?_, fun hx h => ?_⟩
  · cases wd <;> cases wh <;> simp [sha1digest] at h <;> (rw [← h]; exact hdg)
  · cases wd <;> cases wh <;> simp [sha1digest] at h <;>
      (rw [← h]; exact ⟨hbuf, hterm, hclen⟩)

theorem C5_witness :
    (sha1bytes (strInput "") 0).length = 20 ∧
    (sha1hexBuf (strInput "") 0).length = 41 ∧
    (sha1hexBuf (strInput "") 0).getD 40 'x' = '\x00' ∧
    cstrlen (sha1hexBuf (strInput "") 0) = 40 :=
  ⟨(C5_output_lengths true true (strInput "") 0).1 _ rfl,
   (C5_output_lengths true true (strInput "") 0).2 _ rfl⟩

/-- C6: in every one of the 80 compression rounds, the (nonlinear
function, additive constant) pair is selected by the round's quartile
exactly as the standard SHA-1 round table prescribes: rounds 0–19 use
choose with 0x5A827999, 20–39 parity with 0x6ED9EBA1, 40–59 majority
with 0x8F1BBCDC, and 60–79 parity with 0xCA62C1D6. -/
theorem C6_round_table_by_quartile :
    ∀ t : Nat, t < 80 →
      (roundF t, roundK t) = roundTable (t / 20) ∧
      (t < 20 → roundF t = fchoose ∧ roundK t = 0x5A827999) ∧
      (20 ≤ t → t < 40 → roundF t = fparity ∧ roundK t = 0x6ED9EBA1) ∧
      (40 ≤ t → t < 60 → roundF t = fmaj ∧ roundK t = 0x8F1BBCDC) ∧
      (60 ≤ t → t < 80 → roundF t = fparity ∧ roundK t = 0xCA62C1D6) := by
  intro t ht
  by_cases h0 : t < 20
  · have hq : t / 20 = 0 := Nat.div_eq_of_lt h0
    refine ⟨?_, fun _ => ⟨roundF_q0 h0, roundK_q0 h0⟩,
      fun h _ => absurd h0 (by omega), fun h _ => absurd h0 (by omega),
      fun h => absurd h0 (by omega)⟩
    rw [hq, roundF_q0 h0, roundK_q0 h0]
    rfl
  · by_cases h1 : t < 40
    · have hq : t / 20 = 1 := by omega
      refine ⟨?_, fun h => absurd h h0, fun _ _ => ⟨roundF_q1 (by omega) h1,
        roundK_q1 (by omega) h1⟩, fun h _ => absurd h1 (by omega),
        fun h => absurd h1 (by omega)⟩
      rw [hq, roundF_q1 (by omega) h1, roundK_q1 (by omega) h1]
      rfl
    · by_cases h2 : t < 60
      · have hq : t / 20 = 2 := by omega
        refine ⟨?_, fun h => absurd h h0, fun _ h => absurd h h1,
          fun _ _ => ⟨roundF_q2 (by omega) h2, roundK_q2 (by omega) h2⟩,
          fun h => absurd h2 (by omega)⟩
        rw [hq, roundF_q2 (by omega) h2, roundK_q2 (by omega) h2]
        rfl
      · have hq : t / 20 = 3 := by omega
        refine ⟨?_, fun h => absurd h h0, fun _ h => absurd h h1,
          fun _ h => absurd h h2, fun _ _ => ⟨roundF_q3 (by omega), roundK_q3 (by omega)⟩⟩
        rw [hq, roundF_q3 (by omega), roundK_q3 (by omega)]
        rfl

theorem C6_witness :
    (roundF 0, roundK 0) = roundTable 0 ∧
    (roundF 25 = fparity ∧ roundK 25 = 0x6ED9EBA1) ∧
    (roundF 55 = fmaj ∧ roundK 55 = 0x8F1BBCDC) ∧
    (roundF 79 = fparity ∧ roundK 79 = 0xCA62C1D6) :=
  ⟨(C6_round_table_by_quartile 0 (by norm_num)).1,
   (C6_round_table_by_quartile 25 (by norm_num)).2.2.1 (by norm_num) (by norm_num),
   (C6_round_table_by_quartile 55 (by norm_num)).2.2.2.1 (by norm_num) (by norm_num),
   (C6_round_table_by_quartile 79 (by norm_num)).2.2.2.2 (by norm_num) (by norm_num)⟩

/-! ## Case-insensitive comparison -/

theorem strcasecmp_map_toupper :
    ∀ l : List Char, (∀ c ∈ l, tolowerC (toupperC c) = tolowerC c) →
      strcasecmp l (l.map toupperC) = 0 := by
  intro l
  induction l with
  | nil => intro _; rfl
  | cons c l ih =>
    intro h
    have hc : tolowerC (toupperC c) = tolowerC c := h c (List.mem_cons_self c l)
    simp only [List.map_cons, strcasecmp]
    rw [if_pos hc.symm]
    exact ih fun x hx => h x (List.mem_cons_of_mem c hx)

theorem hexChar_case_roundtrip :
    ∀ m, m < 16 → tolowerC (toupperC (hexChar m)) = tolowerC (hexChar m) := by decide

/-! ## Claims C8, C9 -/

/-- C8: when an NSRL data file has length 0, the per-file processing
skips the read-failure check entirely, reports no error, and still runs
the digest computation and comparison with length 0: a zero-byte data
file is a valid empty-input test case, not skipped. -/
theorem C8_zero_size_file_still_tested :
    ∀ (readok : Bool) (data : Nat → Nat) (known : List Char),
      processDatafile 0 readok data known = some (testhash data 0 known) := by
  intro readok data known
  simp [processDatafile]

/-- C9: `testhash` returns 1 whenever `sha1digest` reports an error;
otherwise it returns the number (0, 1 or 2) of the two digest views
that differ from the known digest under `strcasecmp`, so an uppercase
known digest matches the lowercase computed digest and yields 0. -/
theorem C9_testhash_counts_mismatches :
    ∀ (r : Nat × Option (List Nat) × Option (List Char)) (known : List Char)
      (data : Nat → Nat) (databytes : Nat),
      (r.1 ≠ 0 → testhashWith r known = 1) ∧
      (r.1 = 0 → testhashWith r known =
        (if strcasecmp (cstr (r.2.2.getD [])) known ≠ 0 then 1 else 0) +
        (if strcasecmp (cstr (generatehex (r.2.1.getD []))) known ≠ 0 then 1 else 0)) ∧
      testhashWith r known ≤ 2 ∧
      testhash data databytes ((sha1hexChars data databytes).map toupperC) = 0 := by
  intro r known data databytes
  refine ⟨fun h => ?_, fun h => ?_, ?_, ?_⟩
  · simp [testhashWith, h]
  · simp [testhashWith, h]
  · unfold testhashWith
    dsimp only
    split
    · omega
    · split <;> split <;> omega
  · have hcase : strcasecmp (sha1hexChars data databytes)
        ((sha1hexChars data databytes).map toupperC) = 0 :=
      strcasecmp_map_toupper _ fun c hc => by
        obtain ⟨m, hm, rfl⟩ := sha1hexChars_mem data databytes c hc
        exact hexChar_case_roundtrip m hm
    have hdef : testhash data databytes ((sha1hexChars data databytes).map toupperC) =
        (if strcasecmp (cstr (sha1hexBuf data databytes))
            ((sha1hexChars data databytes).map toupperC) ≠ 0 then 1 else 0) +
        (if strcasecmp (cstr (generatehex (sha1bytes data databytes)))
            ((sha1hexChars data databytes).map toupperC) ≠ 0 then 1 else 0) := rfl
    rw [hdef, generatehex_sha1bytes, cstr_sha1hexBuf, hcase]
    simp

theorem C9_witness :
    testhashWith (1, none, none) ['x'] = 1 ∧
    testhash (strInput "") 0 ((sha1hexChars (strInput "") 0).map toupperC) = 0 :=
  ⟨(C9_testhash_counts_mismatches (1, none, none) ['x'] (strInput "") 0).1 (by norm_num),
   (C9_testhash_counts_mismatches (1, none, none) ['x'] (strInput "") 0).2.2.2⟩

/-! ## NSRL loop lemmas -/

theorem takeWhile_of_all {p : Char → Bool} :
    ∀ l : List Char, (∀ c ∈ l, p c = true) → l.takeWhile p = l := by
  intro l
  induction l with
  | nil => intro _; rfl
  | cons c l ih =>
    intro h
    rw [List.takeWhile_cons, if_pos (h c (List.mem_cons_self c l))]
    rw [ih fun x hx => h x (List.mem_cons_of_mem c hx)]

theorem takeWhile_take {p : Char → Bool} :
    ∀ (l : List Char) (n : Nat), n ≤ (l.takeWhile p).length →
      (l.take n).takeWhile p = l.take n := by
  intro l
  induction l with
  | nil => intro n _; simp
  | cons c l ih =>
    intro n hn
    cases n with
    | zero => simp
    | succ n =>
      rw [List.takeWhile_cons] at hn
      by_cases hc : p c = true
      · rw [if_pos hc] at hn
        simp only [List.length_cons, Nat.add_le_add_iff_right] at hn
        rw [List.take_succ_cons, List.takeWhile_cons, if_pos hc, ih n hn]
      · rw [if_neg hc] at hn
        simp at hn

/-- A qualifying line's stored value is exactly its first 40 characters. -/
theorem storedOf_of_qualifies {line : List Char} (h : qualifies line = true) :
    storedOf line = line.take 40 := by
  have h42 : 42 ≤ cstrlen line := by
    unfold qualifies at h
    simp only [Bool.and_eq_true, decide_eq_true_eq, beq_iff_eq] at h
    exact h.1.1
  unfold storedOf cstr
  unfold cstrlen cstr at h42
  exact takeWhile_take line 40 (by omega)

/-- The collection loop appends the stored values of the qualifying lines
and writes them at consecutive indices starting at the current count. -/
theorem nsrlLoop_spec :
    ∀ (lines : List (List Char)) (hs : List (List Char)) (ws : List Nat),
      nsrlLoop lines hs ws =
        (hs ++ (lines.filter fun l => qualifies l).map storedOf,
         ws ++ List.range' hs.length (lines.filter fun l => qualifies l).length 1) := by
  intro lines
  induction lines with
  | nil => intro hs ws; simp [nsrlLoop]
  | cons line rest ih =>
    intro hs ws
    by_cases hq : qualifies line = true
    · simp only [nsrlLoop]
      rw [if_pos hq, ih, List.filter_cons, if_pos hq]
      simp only [List.map_cons, List.length_cons, List.length_append,
        List.length_singleton, List.append_assoc, List.singleton_append]
      rfl
    · simp only [nsrlLoop]
      rw [if_neg hq, ih, List.filter_cons, if_neg hq]

theorem nsrlhashes_eq (lines : List (List Char)) :
    nsrlhashes lines = ((lines.filter fun l => qualifies l).map storedOf) := by
  unfold nsrlhashes
  rw [nsrlLoop_spec]
  rfl

theorem nsrlWrites_eq (lines : List (List Char)) :
    nsrlWrites lines = List.range (lines.filter fun l => qualifies l).length := by
  unfold nsrlWrites
  rw [nsrlLoop_spec]
  simp [List.range_eq_range']

/-! ## Claims C7, C10 -/

/-- C7: the harness stores a hash-list line exactly when the line's
C-string length is at least 42 with a space at index 40 and '^' at
index 41, the stored value being the line's first 40 characters; and the
k-th stored hash (in file order) is paired with the data file named
`byte%04d.dat` with number k. -/
theorem C7_nsrl_store_and_pairing :
    ∀ (lines : List (List Char)) (dir : List Char) (k : Nat),
      (∀ line, qualifies line = true ↔
        (42 ≤ cstrlen line ∧ line.getD 40 '\x00' = ' ' ∧ line.getD 41 '\x00' = '^')) ∧
      nsrlhashes lines = ((lines.filter fun l => qualifies l).map fun l => l.take 40) ∧
      (k < (nsrlhashes lines).length →
        (nsrlTests dir (nsrlhashes lines)).getD k ([], []) =
          (dir ++ "/byte".toList ++ sprintf04d k ++ ".dat".toList,
           (nsrlhashes lines).getD k [])) := by
  intro lines dir k
  refine ⟨fun line => ?_, ?_, fun hk => ?_⟩
  · unfold qualifies
    simp [Bool.and_eq_true, decide_eq_true_eq, beq_iff_eq, and_assoc]
  · rw [nsrlhashes_eq]
    exact List.map_congr_left fun l hl =>
      storedOf_of_qualifies (List.mem_filter.mp hl).2
  · unfold nsrlTests nsrlPath
    rw [List.getD_eq_getElem?_getD, List.getElem?_map, List.getElem?_range hk]
    rfl

set_option maxRecDepth 40000 in
theorem C7_witness :
    qualifies (List.replicate 40 'a' ++ [' ', '^', '\x0A']) = true ∧
    nsrlhashes [List.replicate 40 'a' ++ [' ', '^', '\x0A'], ['b', 'a', 'd']] =
      [List.replicate 40 'a'] ∧
    (nsrlTests ['d'] [List.replicate 40 'a']).getD 0 ([], []) =
      (['d'] ++ "/byte".toList ++ sprintf04d 0 ++ ".dat".toList, List.replicate 40 'a') := by
  refine ⟨?_, ?_, ?_⟩
  · exact ((C7_nsrl_store_and_pairing [] [] 0).1 _).mpr (by decide)
  · rw [(C7_nsrl_store_and_pairing
      [List.replicate 40 'a' ++ [' ', '^', '\x0A'], ['b', 'a', 'd']] [] 0).2.1]
    decide
  · exact (C7_nsrl_store_and_pairing [List.replicate 40 'a' ++ [' ', '^', '\x0A']]
      ['d'] 0).2.2 (by decide)

/-- C10: if the hash-list file has at most 200 qualifying lines, every
write `nsrlhashes[hashcount]` during parsing and every read
`nsrlhashes[idx]` during testing stays below 200 (the array size); the
loop has no bounds check, and with more than 200 qualifying lines an
out-of-bounds index is reached, so the precondition is necessary. -/
theorem C10_nsrl_array_bounds :
    ∀ lines : List (List Char),
      ((lines.filter fun l => qualifies l).length ≤ 200 →
        (∀ i ∈ nsrlWrites lines, i < 200) ∧
        (∀ idx, idx < (nsrlhashes lines).length → idx < 200)) ∧
      (200 < (lines.filter fun l => qualifies l).length →
        ∃ i ∈ nsrlWrites lines, 200 ≤ i) := by
  intro lines
  constructor
  · intro hle
    constructor
    · intro i hi
      rw [nsrlWrites_eq] at hi
      have := List.mem_range.mp hi
      omega
    · intro idx hidx
      rw [nsrlhashes_eq, List.length_map] at hidx
      omega
  · intro hgt
    refine ⟨200, ?_, Nat.le_refl 200⟩
    rw [nsrlWrites_eq]
    exact List.mem_range.mpr hgt

set_option maxRecDepth 1000000 in
theorem C10_witness :
    (∀ i ∈ nsrlWrites [List.replicate 40 'a' ++ [' ', '^']], i < 200) ∧
    (∃ i ∈ nsrlWrites (List.replicate 201 (List.replicate 40 'a' ++ [' ', '^'])), 200 ≤ i) :=
  ⟨((C10_nsrl_array_bounds [List.replicate 40 'a' ++ [' ', '^']]).1 (by decide)).1,
   (C10_nsrl_array_bounds (List.replicate 201 (List.replicate 40 'a' ++ [' ', '^']))).2
     (by decide)⟩

/-! ## Known-answer computations

The million-byte vector `repData 97` pads to 15626 blocks: blocks
0 … 15624 consist entirely of data bytes 0x61, and block 15625 is the
padding block. For the 15625 full data blocks every schedule-window word is
the literal 0x61616161, so their hash states are evaluated with the
specialised step `processBlockL` (proved equal to `processBlockF` below),
in chunks of at most 1000 blocks chained with `blocksL_add`; the final
padding block is evaluated with `blocksF` directly. -/

theorem wordAt_million {blk j : Nat} (hb : blk ≤ 15624) (hj : j ≤ 15) :
    wordAt (repData 97) 1000000 blk j = 1633771873 := by
  have h0 : blk * 64 + j * 4 < 1000000 := by omega
  have h1 : blk * 64 + j * 4 + 1 < 1000000 := by omega
  have h2 : blk * 64 + j * 4 + 2 < 1000000 := by omega
  have h3 : blk * 64 + j * 4 + 3 < 1000000 := by omega
  simp only [wordAt, paddedByte, repData, if_pos h0, if_pos h1, if_pos h2, if_pos h3]
  decide

theorem processBlockL_eq (blk : Nat) (hb : blk ≤ 15624)
    (h : Nat × Nat × Nat × Nat × Nat) :
    processBlockF (repData 97) 1000000 blk h = processBlockL h := by
  have hw : ∀ j : Nat, j ≤ 15 → wordAt (repData 97) 1000000 blk j = 1633771873 :=
    fun _ hj => wordAt_million hb hj
  unfold processBlockF processBlockL
  simp only [hw 0 (by omega), hw 1 (by omega), hw 2 (by omega), hw 3 (by omega),
    hw 4 (by omega), hw 5 (by omega), hw 6 (by omega), hw 7 (by omega),
    hw 8 (by omega), hw 9 (by omega), hw 10 (by omega), hw 11 (by omega),
    hw 12 (by omega), hw 13 (by omega), hw 14 (by omega), hw 15 (by omega)]

theorem blocksL_succ (n : Nat) (s : Nat × Nat × Nat × Nat × Nat) :
    blocksL (n + 1) s = blocksL n (processBlockL s) := by
  show force5 (processBlockL s) (fun h => blocksL n h) = _
  rw [force5_eq]

theorem blocksL_add (p : Nat) :
    ∀ q s, blocksL (p + q) s = blocksL q (blocksL p s) := by
  induction p with
  | zero => intro q s; rw [Nat.zero_add]; rfl
  | succ p ih =>
    intro q s
    have hsplit : p + 1 + q = (p + q) + 1 := by omega
    rw [hsplit, blocksL_succ, blocksL_succ, ih]

theorem blocksL_eq (n : Nat) :
    ∀ blk s, blk + n ≤ 15625 →
      blocksF (repData 97) 1000000 n blk s = blocksL n s := by
  induction n with
  | zero => intro blk s _; rfl
  | succ n ih =>
    intro blk s hle
    rw [blocksF_succ, processBlockL_eq blk (by omega), blocksL_succ, ih (blk + 1) _ (by omega)]

set_option maxRecDepth 1000000 in
theorem millionChunk1 : blocksL 1000 initState =
    (3972225629, 3272084623, 4203740647, 212780433, 735693268) := by decide!

set_option maxRecDepth 1000000 in
theorem millionChunk2 : blocksL 1000 (3972225629, 3272084623, 4203740647, 212780433, 735693268) =
    (4178572126, 81680097, 2263944870, 1212818063, 4094345299) := by decide!

set_option maxRecDepth 1000000 in
theorem millionChunk3 : blocksL 1000 (4178572126, 81680097, 2263944870, 1212818063, 4094345299) =
    (984429930, 1047108198, 2251686227, 1234945590, 2072762177) := by decide!

set_option maxRecDepth 1000000 in
theorem millionChunk4 : blocksL 1000 (984429930, 1047108198, 2251686227, 1234945590, 2072762177) =
    (715337553, 1560917109, 3136984172, 4127937686, 1733631277) := by decide!

set_option maxRecDepth 1000000 in
theorem millionChunk5 : blocksL 1000 (715337553, 1560917109, 3136984172, 4127937686, 1733631277) =
    (271993472, 1060296977, 317791480, 2099025037, 3670299093) := by decide!

set_option maxRecDepth 1000000 in
theorem millionChunk6 : blocksL 1000 (271993472, 1060296977, 317791480, 2099025037, 3670299093) =
    (1198154581, 3558037790, 1554120743, 196058543, 3107776009) := by decide!

set_option maxRecDepth 1000000 in
theorem millionChunk7 : blocksL 1000 (1198154581, 3558037790, 1554120743, 196058543, 3107776009) =
    (1446791080, 28605920, 2291417966, 1818657917, 1225646720) := by decide!

set_option maxRecDepth 1000000 in
theorem millionChunk8 : blocksL 1000 (1446791080, 28605920, 2291417966, 1818657917, 1225646720) =
    (211836831, 3468326933, 2531616335, 300065989, 2872092880) := by decide!

set_option maxRecDepth 1000000 in
theorem millionChunk9 : blocksL 1000 (211836831, 3468326933, 2531616335, 300065989, 2872092880) =
    (190299258, 2937425490, 124871614, 208372790, 3560870983) := by decide!

set_option maxRecDepth 1000000 in
theorem millionChunk10 : blocksL 1000 (190299258, 2937425490, 124871614, 208372790, 3560870983) =
    (3662101917, 1034553309, 525071447, 2207474342, 855712429) := by decide!

set_option maxRecDepth 1000000 in
theorem millionChunk11 : blocksL 1000 (3662101917, 1034553309, 525071447, 2207474342, 855712429) =
    (3873779155, 3677126840, 2131135521, 3863036057, 3583211294) := by decide!

set_option maxRecDepth 1000000 in
theorem millionChunk12 : blocksL 1000 (3873779155, 3677126840, 2131135521, 3863036057, 3583211294) =
    (3905236903, 162134865, 3930403978, 3202120457, 3235658848) := by decide!

set_option maxRecDepth 1000000 in
theorem millionChunk13 : blocksL 1000 (3905236903, 162134865, 3930403978, 3202120457, 3235658848) =
    (1896731202, 2268055812, 1853793421, 3549910038, 940797935) := by decide!

set_option maxRecDepth 1000000 in
theorem millionChunk14 : blocksL 1000 (1896731202, 2268055812, 1853793421, 3549910038, 940797935) =
    (1371331595, 530506480, 194759716, 1937435288, 2097673224) := by decide!

set_option maxRecDepth 1000000 in
theorem millionChunk15 : blocksL 1000 (1371331595, 530506480, 194759716, 1937435288, 2097673224) =
    (2393083162, 544130160, 1071763312, 3492225219, 2028885752) := by decide!

set_option maxRecDepth 1000000 in
theorem millionChunk16 : blocksL 625 (2393083162, 544130160, 1071763312, 3492225219, 2028885752) =
    (2689137366, 452846373, 4260416976, 1315111631, 1780696285) := by decide!

set_option maxRecDepth 1000000 in
theorem millionChunk17 : blocksF (repData 97) 1000000 1 15625
    (2689137366, 452846373, 4260416976, 1315111631, 1780696285) =
    (883595068, 3569670820, 4129221419, 3685558065, 1697907055) := by decide!

theorem sha1state_million : sha1state (repData 97) 1000000 =
    (883595068, 3569670820, 4129221419, 3685558065, 1697907055) := by
  have hsF : sha1stateF (repData 97) 1000000 =
      (883595068, 3569670820, 4129221419, 3685558065, 1697907055) := by
    unfold sha1stateF
    rw [show padLen 1000000 / 64 = 15626 from rfl]
    rw [show (15626 : Nat) = 15625 + 1 from rfl, blocksF_add,
      blocksL_eq 15625 0 initState (by omega),
      show ((0 : Nat) + 15625) = 15625 from rfl]
    rw [show (15625 : Nat) = 1000 + 14625 from rfl, blocksL_add, millionChunk1]
    rw [show (14625 : Nat) = 1000 + 13625 from rfl, blocksL_add, millionChunk2]
    rw [show (13625 : Nat) = 1000 + 12625 from rfl, blocksL_add, millionChunk3]
    rw [show (12625 : Nat) = 1000 + 11625 from rfl, blocksL_add, millionChunk4]
    rw [show (11625 : Nat) = 1000 + 10625 from rfl, blocksL_add, millionChunk5]
    rw [show (10625 : Nat) = 1000 + 9625 from rfl, blocksL_add, millionChunk6]
    rw [show (9625 : Nat) = 1000 + 8625 from rfl, blocksL_add, millionChunk7]
    rw [show (8625 : Nat) = 1000 + 7625 from rfl, blocksL_add, millionChunk8]
    rw [show (7625 : Nat) = 1000 + 6625 from rfl, blocksL_add, millionChunk9]
    rw [show (6625 : Nat) = 1000 + 5625 from rfl, blocksL_add, millionChunk10]
    rw [show (5625 : Nat) = 1000 + 4625 from rfl, blocksL_add, millionChunk11]
    rw [show (4625 : Nat) = 1000 + 3625 from rfl, blocksL_add, millionChunk12]
    rw [show (3625 : Nat) = 1000 + 2625 from rfl, blocksL_add, millionChunk13]
    rw [show (2625 : Nat) = 1000 + 1625 from rfl, blocksL_add, millionChunk14]
    rw [show (1625 : Nat) = 1000 + 625 from rfl, blocksL_add, millionChunk15,
      millionChunk16]
    exact millionChunk17
  exact (sha1stateF_eq _ _).symm.trans hsF

/-! ## Claims C1, C2 -/

set_option maxRecDepth 1000000 in
/-- C1: for each of the known-answer inputs, the digest engine produces
exactly the spec-listed lowercase hex digest: the empty input, `"abc"`,
one million repetitions of `'a'`, and the quick-brown-fox sentence. -/
theorem C1_known_answer_vectors :
    sha1hexString (strInput "") 0 = "da39a3ee5e6b4b0d3255bfef95601890afd80709" ∧
    sha1hexString (strInput "abc") 3 = "a9993e364706816aba3e25717850c26c9cd0d89d" ∧
    sha1hexString (repData 97) 1000000 = "34aa973cd4c4daa4f61eeb2bdbad27316534016f" ∧
    sha1hexString (strInput "The quick brown fox jumps over the lazy dog") 43 =
      "2fd4e1c67a2d28fced849ee1bb76e7391b93eb12" := by
  refine ⟨?_, ?_, ?_, ?_⟩
  · have hstate : sha1state (strInput "") 0 =
        (3661210606, 1584089869, 844480495, 2506102928, 2950170377) :=
      (sha1stateF_eq _ _).symm.trans (by decide!)
    simp only [sha1hexString, sha1hexChars, sha1bytes]
    rw [hstate]
    decide
  · have hstate : sha1state (strInput "abc") 3 =
        (2845392438, 1191608682, 3124634993, 2018558572, 2630932637) :=
      (sha1stateF_eq _ _).symm.trans (by decide!)
    simp only [sha1hexString, sha1hexChars, sha1bytes]
    rw [hstate]
    decide
  · simp only [sha1hexString, sha1hexChars, sha1bytes]
    rw [sha1state_million]
    decide
  · have hstate : sha1state (strInput "The quick brown fox jumps over the lazy dog") 43 =
        (802480582, 2049779964, 3984891617, 3145131833, 462678802) :=
      (sha1stateF_eq _ _).symm.trans (by decide!)
    simp only [sha1hexString, sha1hexChars, sha1bytes]
    rw [hstate]
    decide

set_option maxRecDepth 1000000 in
/-- C2 (counterexample): the 56-byte two-block vector does **not** hash
to the spec's listed 39-character string
`84983e441c3bd26ebaae4aa1f95129e5e54670f` — that value drops the final
hex digit. -/
theorem C2_counterexample :
    sha1hexString (strInput "abcdbcdecdefdefgefghfghighijhijkijkljklmklmnlmnomnopnopq") 56 ≠
      "84983e441c3bd26ebaae4aa1f95129e5e54670f" := by
  have hstate : sha1state
      (strInput "abcdbcdecdefdefgefghfghighijhijkijkljklmklmnlmnomnopnopq") 56 =
      (2224569924, 473682542, 3131984545, 4182845925, 3846598897) :=
    (sha1stateF_eq _ _).symm.trans (by decide!)
  simp only [sha1hexString, sha1hexChars, sha1bytes]
  rw [hstate]
  decide

set_option maxRecDepth 1000000 in
/-- C2 (amended): the 56-byte vector
`"abcdbcdecdefdefgefghfghighijhijkijkljklmklmnlmnomnopnopq"` hashes to
the full 40-character digest `84983e441c3bd26ebaae4aa1f95129e5e54670f1`,
as listed in the test program. -/
theorem C2_amended_full_digest :
    sha1hexString (strInput "abcdbcdecdefdefgefghfghighijhijkijkljklmklmnlmnomnopnopq") 56 =
      "84983e441c3bd26ebaae4aa1f95129e5e54670f1" := by
  have hstate : sha1state
      (strInput "abcdbcdecdefdefgefghfghighijhijkijkljklmklmnlmnomnopnopq") 56 =
      (2224569924, 473682542, 3131984545, 4182845925, 3846598897) :=
    (sha1stateF_eq _ _).symm.trans (by decide!)
  simp only [sha1hexString, sha1hexChars, sha1bytes]
  rw [hstate]
  decide

end TeenySha1
